import Mathlib

/-!
Verification of the weather-station measurement aggregation and timed-publish
core against its specification.

The definitions below are a shallow embedding of the Go sources:
  * `src/metrics-server/cmd/main.go` — the conditions aggregator
    (`SetTempHumidityConditions`, `SetWindRainConditions`,
    `GetCurrentConditions`) protected by a single mutex;
  * `src/metrics-service/cmd/pws_publisher/main.go` — the rain accumulator
    (`handleWindRainMeasurement`), the staleness check, the select-loop timer
    tick, and `submitMeasurement`'s query-parameter construction.
Measurement values (Go `float32`) are modelled exactly over `ℚ`; wall-clock
times and durations are modelled as integer nanoseconds (`ℤ`), matching Go's
`time.Duration` representation.  Go maps are modelled as total lookup
functions `String → Option String`.
-/

namespace WeatherStation

/-! ## Data model (mqtt.go / metrics-server main.go) -/

/-- Structure `TempHumidityMeasurement` from mqtt.go: decoded temp/humidity event. -/
structure TempHumidityMeasurement where
  timestamp : String
  temp : ℚ
  humidity : ℚ
  battery : ℤ

/-- Structure `WindRainMeasurement` from mqtt.go: decoded wind/rain event.
`rainInches` is the sensor's cumulative rain counter. -/
structure WindRainMeasurement where
  timestamp : String
  windSpeed : ℚ
  windDirection : ℚ
  rainInches : ℚ
  battery : ℤ

/-- Structure `CurrentConditions` from mqtt.go / metrics-server main.go: the rolling
aggregate state. -/
structure CurrentConditions where
  timestamp : String
  temp : ℚ
  humidity : ℚ
  battery : ℤ
  windSpeed : ℚ
  windDirection : ℚ
  rainInches : ℚ

/-- The Go zero value of `CurrentConditions`: the aggregate at process start. -/
def initCC : CurrentConditions :=
  { timestamp := "", temp := 0, humidity := 0, battery := 0,
    windSpeed := 0, windDirection := 0, rainInches := 0 }

/-- Setter `App.SetTempHumidityConditions` (metrics-server main.go lines 146-154),
the field updates performed inside the mutex-protected section. -/
def SetTempHumidityConditions (cc : CurrentConditions)
    (m : TempHumidityMeasurement) : CurrentConditions :=
  { cc with timestamp := m.timestamp, temp := m.temp,
            humidity := m.humidity, battery := m.battery }

/-- Setter `App.SetWindRainConditions` (metrics-server main.go lines 156-164). -/
def SetWindRainConditions (cc : CurrentConditions)
    (m : WindRainMeasurement) : CurrentConditions :=
  { cc with timestamp := m.timestamp, battery := m.battery,
            windDirection := m.windDirection, windSpeed := m.windSpeed,
            rainInches := m.rainInches }

/-- A decoded measurement event: the tagged union dispatched on
`message_type` by `weatherPubHandler`. -/
inductive Event
  | tempHumidity (m : TempHumidityMeasurement)
  | windRain (m : WindRainMeasurement)

/-- Applying one event to the aggregate: the per-variant setter selected by
`weatherPubHandler`. -/
def applyEvent (cc : CurrentConditions) : Event → CurrentConditions
  | .tempHumidity m => SetTempHumidityConditions cc m
  | .windRain m => SetWindRainConditions cc m

/-- Source timestamp carried by an event (both variants carry one). -/
def eventTimestamp : Event → String
  | .tempHumidity m => m.timestamp
  | .windRain m => m.timestamp

/-- Battery flag carried by an event (both variants set it). -/
def eventBattery : Event → ℤ
  | .tempHumidity m => m.battery
  | .windRain m => m.battery

/-- The most recent temp/humidity event in a list, if any. -/
def lastTH (es : List Event) : Option TempHumidityMeasurement :=
  es.foldl (fun acc e => match e with
    | .tempHumidity m => some m
    | .windRain _ => acc) none

/-- The most recent wind/rain event in a list, if any. -/
def lastWR (es : List Event) : Option WindRainMeasurement :=
  es.foldl (fun acc e => match e with
    | .tempHumidity _ => acc
    | .windRain m => some m) none

/-! ## Rain accumulator (pws_publisher main.go lines 38-54)

`App.LastRainFall` starts at `-1.0` (`NewApp`); a negative value is the
"no baseline" sentinel.  On each wind/rain event the handler reads the wall
clock, invalidates the baseline at local midnight (hour 0, minute 0),
re-baselines when the sentinel is negative, and reports
`cumulative - baseline`. -/

/-- State `App` of the pws publisher: the running rain baseline. -/
structure App where
  lastRainFall : ℚ

/-- The baseline value of `a.LastRainFall` after the two conditionals at
lines 41-47 ran with wall-clock `hour`/`minute` and cumulative rain `c`. -/
def rainBaselineUpdate (l : ℚ) (hour minute : Nat) (c : ℚ) : ℚ :=
  let l1 := if hour = 0 ∧ minute = 0 then -1 else l
  if l1 < 0 then c else l1

/-- One rain-accumulator call: given baseline `l`, wall-clock `hour`/`minute`
and cumulative reading `c`, returns `(reported delta, new baseline)` as
computed by `handleWindRainMeasurement`. -/
def rainCall (l : ℚ) (hour minute : Nat) (c : ℚ) : ℚ × ℚ :=
  let l2 := rainBaselineUpdate l hour minute c
  (c - l2, l2)

/-- The sequence of reported deltas for a run of cumulative readings fed one
by one through the accumulator, all observed at the same wall-clock
`hour`/`minute`. -/
def rainDeltasRun (l : ℚ) (hour minute : Nat) : List ℚ → List ℚ
  | [] => []
  | c :: cs =>
      (rainCall l hour minute c).1 ::
        rainDeltasRun (rainCall l hour minute c).2 hour minute cs

/-! ## Measurement formatting (pws_publisher handlers) -/

/-- Formatting `%0.2f` as in fmt.Sprintf: decimal rendering of a rational rounded to two
fractional digits. -/
def fmt2 (q : ℚ) : String :=
  let n : ℤ := round (q * 100)
  let sign := if n < 0 then "-" else ""
  let a := n.natAbs
  sign ++ toString (a / 100) ++ "." ++
    (if a % 100 < 10 then "0" else "") ++ toString (a % 100)

/-- The km/h→mph conversion constant `0.62137119` of line 50. -/
def kmhToMph : ℚ := 62137119 / 100000000

/-- Handler `App.handleWindRainMeasurement` (lines 38-54): updates the rain baseline
and builds the outbound key/value map.  The wall clock read by `time.Now()`
is passed in as `hour`/`minute`. -/
def handleWindRainMeasurement (a : App) (hour minute : Nat)
    (m : WindRainMeasurement) : App × (String → Option String) :=
  let l := rainBaselineUpdate a.lastRainFall hour minute m.rainInches
  (⟨l⟩, fun k =>
    if k = "windspeedmph" then some (fmt2 (m.windSpeed * kmhToMph))
    else if k = "wind_dir" then some (fmt2 m.windDirection)
    else if k = "dailyrainin" then some (fmt2 (m.rainInches - l))
    else none)

/-- Handler `handleTempHumidityMeasurement` (lines 56-61). -/
def handleTempHumidityMeasurement (m : TempHumidityMeasurement) :
    String → Option String :=
  fun k =>
    if k = "tempf" then some (fmt2 m.temp)
    else if k = "humidity" then some (fmt2 m.humidity)
    else none

/-! ## Staleness check (pws_publisher main.go lines 193-201)

`d := time.Since(*data.Timestamp); if d.Minutes() > 5 { skip }`.
A `time.Duration` is an integer count of nanoseconds; `Duration.Minutes`
divides by the number of nanoseconds per minute. -/

/-- Nanoseconds in one minute. -/
def nsPerMinute : ℚ := 60 * 1000000000

/-- Value of `Duration.Minutes` for a duration of `d` nanoseconds. -/
def durationMinutes (d : ℤ) : ℚ := (d : ℚ) / nsPerMinute

/-- The staleness test of line 196: the snapshot is stale when the age of the
last update exceeds five minutes.  Timestamps are nanosecond instants. -/
def isStale (lastUpdated now : ℤ) : Bool :=
  durationMinutes (now - lastUpdated) > 5

/-! ## Scheduler loop state and timer tick (pws_publisher main.go 176-217) -/

/-- Record `RTL433Message`: the merged message record; `timestamp` is a `*time.Time`
(nil before the first event), `data` the accumulated key/value map. -/
structure RTL433Message where
  timestamp : Option ℤ
  data : String → Option String

/-- The select-loop state: publisher app state, the `data` variable, and
whether a pending `time.After` timer exists.  `timer = time.After(60s)` is
armed before the loop; once the timer case fires, the channel is drained and
only the `timer = time.After(...)` assignment at line 213 re-arms it. -/
structure LoopState where
  app : App
  data : RTL433Message
  timerArmed : Bool

/-- The event case of the select loop (lines 187-191): overwrite the
timestamp and merge the message's keys into the accumulated map. -/
def recvMessage (s : LoopState) (m : RTL433Message) : LoopState :=
  { s with data :=
      { timestamp := m.timestamp,
        data := fun k => match m.data k with
          | some v => some v
          | none => s.data.data k } }

/-- Result of a `submitMeasurement` call as seen by the loop: a status code
and body, or a transport error (in which case `http.Get` returned a nil
response). -/
inductive SinkResult
  | ok (status : ℤ) (body : String)
  | fail (err : String)

/-- What one timer tick did. -/
inductive TickOutcome
  | panicked
  | skippedStale
  | sinkErrorSkipped
  | published (status : ℤ) (body : String)

/-- The timer case of the select loop (lines 193-213).  Dereferencing
`*data.Timestamp` while it is still nil is a runtime panic (`none` result:
the process dies).  On a stale snapshot or a failed sink call the loop
`continue`s without executing the `timer = time.After(...)` re-arm, so the
timer is left un-armed; only the successful-publish path re-arms it. -/
def timerTick (s : LoopState) (now : ℤ) (sink : SinkResult) :
    TickOutcome × Option LoopState :=
  match s.data.timestamp with
  | none => (.panicked, none)
  | some ts =>
    if isStale ts now then
      (.skippedStale, some { s with timerArmed := false })
    else
      match sink with
      | .fail _ => (.sinkErrorSkipped, some { s with timerArmed := false })
      | .ok st body => (.published st body, some { s with timerArmed := true })

/-- The timer case of the older pws publisher variant (lines 412-421): no
staleness check, and `defer resp.Body.Close()` is executed before the error
test, dereferencing the nil response when the sink call failed (panic).
Returns the outcome and whether the timer re-arm at line 421 was reached. -/
def timerTickOld (sink : SinkResult) : TickOutcome × Bool :=
  match sink with
  | .fail _ => (.panicked, false)
  | .ok st body => (.published st body, true)

/-! ## Outbound query construction (`submitMeasurement`, lines 220-244) -/

/-- The four fixed parameters of the `mdict` literal at lines 221-226. -/
def fixedParams (id key : String) : String → Option String := fun k =>
  if k = "ID" then some id
  else if k = "PASSWORD" then some key
  else if k = "action" then some "updateraw"
  else if k = "dateutc" then some "now"
  else none

/-- Map `mdict` after the merge loop at lines 228-230: the fixed parameters with
every entry of `values` written over them. -/
def mdict (id key : String) (values : String → Option String) :
    String → Option String :=
  fun k => match values k with
    | some v => some v
    | none => fixedParams id key k

/-- The set of query parameters actually emitted by the loop at lines
232-239: every entry of `mdict` except the one keyed `"timestamp"`, which is
skipped. -/
def submitMeasurementQuery (id key : String)
    (values : String → Option String) : String → Option String :=
  fun k => if k = "timestamp" then none else mdict id key values k

/-! ## Fine-grained concurrency model of the mutex-protected aggregator
(metrics-server main.go lines 146-172)

Each setter acquires the single mutex, performs its field assignments one by
one, and releases; `GetCurrentConditions` copies the record under the same
mutex.  We model one writer thread executing a list of setter calls and one
reader thread executing one `GetCurrentConditions`, interleaved at the
granularity of single field accesses, with a `lock` acquirable only when
free.  The struct copy of line 168 is modelled as a field-by-field read
inside the reader's critical section. -/

/-- One atomic field assignment performed by a setter while holding the
mutex. -/
inductive WriteAct
  | wTs (s : String)
  | wTemp (q : ℚ)
  | wHum (q : ℚ)
  | wBat (z : ℤ)
  | wWS (q : ℚ)
  | wWD (q : ℚ)
  | wRain (q : ℚ)

/-- Effect of a single field assignment on shared memory. -/
def doWrite (cc : CurrentConditions) : WriteAct → CurrentConditions
  | .wTs s => { cc with timestamp := s }
  | .wTemp q => { cc with temp := q }
  | .wHum q => { cc with humidity := q }
  | .wBat z => { cc with battery := z }
  | .wWS q => { cc with windSpeed := q }
  | .wWD q => { cc with windDirection := q }
  | .wRain q => { cc with rainInches := q }

/-- The assignments of a setter's critical section, in source order
(lines 148-151 for temp/humidity, lines 158-162 for wind/rain). -/
def bodyOf : Event → List WriteAct
  | .tempHumidity m =>
      [.wTs m.timestamp, .wTemp m.temp, .wHum m.humidity, .wBat m.battery]
  | .windRain m =>
      [.wTs m.timestamp, .wBat m.battery, .wWD m.windDirection,
       .wWS m.windSpeed, .wRain m.rainInches]

/-- One atomic field read performed while copying the record. -/
inductive ReadAct
  | rTs
  | rTemp
  | rHum
  | rBat
  | rWS
  | rWD
  | rRain

/-- Effect of one field read: copy that field of shared memory into the
reader's local record. -/
def doRead (mem acc : CurrentConditions) : ReadAct → CurrentConditions
  | .rTs => { acc with timestamp := mem.timestamp }
  | .rTemp => { acc with temp := mem.temp }
  | .rHum => { acc with humidity := mem.humidity }
  | .rBat => { acc with battery := mem.battery }
  | .rWS => { acc with windSpeed := mem.windSpeed }
  | .rWD => { acc with windDirection := mem.windDirection }
  | .rRain => { acc with rainInches := mem.rainInches }

/-- The reads of the struct copy `m := app.currentConditions`, one per
field. -/
def allReads : List ReadAct :=
  [.rTs, .rTemp, .rHum, .rBat, .rWS, .rWD, .rRain]

/-- Progress of the writer thread: between setter calls with events still
pending, or inside a setter's critical section with `rest` assignments left. -/
inductive WriterPhase
  | idle (pending : List Event)
  | busy (e : Event) (rest : List WriteAct) (pending : List Event)

/-- Progress of the reader thread through its single
`GetCurrentConditions`. -/
inductive ReaderPhase
  | notStarted
  | reading (rest : List ReadAct) (acc : CurrentConditions)
  | finished (result : CurrentConditions)

/-- Which thread currently holds the mutex. -/
inductive Owner
  | writer
  | reader

/-- Global state of the two-thread execution. -/
structure ConcState where
  mem : CurrentConditions
  lock : Option Owner
  wr : WriterPhase
  rd : ReaderPhase

/-- Thread identifier chosen by the scheduler at each step. -/
inductive Tid
  | w
  | r

/-- One scheduler-chosen small step.  `Lock` acquisition blocks (no step)
unless the mutex is free; field accesses are single atomic actions.  `none`
means the chosen thread cannot move. -/
def step (s : ConcState) : Tid → Option ConcState
  | .w =>
    match s.wr with
    | .idle [] => none
    | .idle (e :: p) =>
      match s.lock with
      | none => some { s with lock := some .writer, wr := .busy e (bodyOf e) p }
      | some _ => none
    | .busy e (a :: rest) p =>
      some { s with mem := doWrite s.mem a, wr := .busy e rest p }
    | .busy _ [] p => some { s with lock := none, wr := .idle p }
  | .r =>
    match s.rd with
    | .notStarted =>
      match s.lock with
      | none => some { s with lock := some .reader, rd := .reading allReads initCC }
      | some _ => none
    | .reading (a :: rest) acc =>
      some { s with rd := .reading rest (doRead s.mem acc a) }
    | .reading [] acc => some { s with lock := none, rd := .finished acc }
    | .finished _ => none

/-- Run a whole schedule; fails if a blocked thread is ever scheduled. -/
def run : ConcState → List Tid → Option ConcState
  | s, [] => some s
  | s, t :: ts =>
    match step s t with
    | none => none
    | some s2 => run s2 ts

/-- Initial state: zeroed shared record, free mutex, writer with the full
event list pending, reader not yet started. -/
def initConc (es : List Event) : ConcState :=
  { mem := initCC, lock := none, wr := .idle es, rd := .notStarted }

/-- Writer-side invariant: outside a critical section the shared record is
the fold of the already-applied prefix; inside one it is that fold with a
prefix of the current setter's assignments applied, and the writer holds the
mutex. -/
def WriterInv (es : List Event) (s : ConcState) : Prop :=
  match s.wr with
  | .idle p => s.lock ≠ some .writer ∧
      ∃ done, es = done ++ p ∧ s.mem = done.foldl applyEvent initCC
  | .busy e rest p => s.lock = some .writer ∧
      ∃ done pre, es = done ++ e :: p ∧ bodyOf e = pre ++ rest ∧
        s.mem = pre.foldl doWrite (done.foldl applyEvent initCC)

/-- Reader-side invariant: while copying, the reader holds the mutex and
finishing the remaining reads will reproduce the shared record exactly; a
finished read is the fold of a whole-event prefix. -/
def ReaderInv (es : List Event) (s : ConcState) : Prop :=
  match s.rd with
  | .notStarted => s.lock ≠ some .reader
  | .reading rest acc => s.lock = some .reader ∧
      rest.foldl (doRead s.mem) acc = s.mem
  | .finished res => s.lock ≠ some .reader ∧
      ∃ k, res = (es.take k).foldl applyEvent initCC

/-- Full invariant of the interleaved execution. -/
def Inv (es : List Event) (s : ConcState) : Prop :=
  WriterInv es s ∧ ReaderInv es s

/-! ## Concrete sample inputs used by witnesses and counterexamples -/

/-- A measurement map whose only entry is keyed `"timestamp"`. -/
def tsOnlyValues : String → Option String :=
  fun k => if k = "timestamp" then some "2025-08-03 21:51:44" else none

/-- A single temp/humidity event (values from the sample payload in
mqtt.go). -/
def sampleEvents : List Event :=
  [.tempHumidity ⟨"2025-08-03 21:51:44", 691 / 10, 97, 1⟩]

/-- A schedule: the writer's whole critical section, then the reader's. -/
def sampleSched : List Tid :=
  [.w, .w, .w, .w, .w, .w, .r, .r, .r, .r, .r, .r, .r, .r, .r]

/-- The snapshot the reader obtains under `sampleSched`. -/
def sampleSnapshot : CurrentConditions :=
  { timestamp := "2025-08-03 21:51:44", temp := 691 / 10, humidity := 97,
    battery := 1, windSpeed := 0, windDirection := 0, rainInches := 0 }

/-- A loop state holding one fresh-looking message received at instant 0,
with the timer pending. -/
def loopStateAt0 : LoopState :=
  { app := ⟨-1⟩,
    data := { timestamp := some 0, data := fun _ => none },
    timerArmed := true }

/-- Executing a setter's whole critical section equals the atomic setter. -/
theorem bodyOf_foldl (e : Event) (cc : CurrentConditions) :
    (bodyOf e).foldl doWrite cc = applyEvent cc e := by
  cases e <;> rfl

/-- Copying every field of the shared record reproduces it exactly. -/
theorem allReads_foldl (mem acc : CurrentConditions) :
    allReads.foldl (doRead mem) acc = mem := by
  cases mem
  rfl

/-- The initial state satisfies the invariant. -/
theorem inv_init (es : List Event) : Inv es (initConc es) := by
  refine ⟨?_, ?_⟩
  · simp only [Inv, WriterInv, initConc]
    exact ⟨by simp, [], by simp, rfl⟩
  · simp only [Inv, ReaderInv, initConc]
    simp

/-- The invariant is preserved by every small step. -/
theorem inv_step (es : List Event) (s s2 : ConcState) (t : Tid)
    (hinv : Inv es s) (hstep : step s t = some s2) : Inv es s2 := by
  obtain ⟨hw, hr⟩ := hinv
  cases t with
  | w =>
    cases hwr : s.wr with
    | idle p =>
      simp only [WriterInv, hwr] at hw
      cases p with
      | nil => simp [step, hwr] at hstep
      | cons e p2 =>
        cases hlock : s.lock with
        | some o => simp [step, hwr, hlock] at hstep
        | none =>
          simp only [step, hwr, hlock, Option.some.injEq] at hstep
          obtain ⟨-, done, hes, hmem⟩ := hw
          subst hstep
          refine ⟨?_, ?_⟩
          · simp only [WriterInv]
            exact ⟨by simp, done, [], hes, by simp, by simpa using hmem⟩
          · cases hrd : s.rd with
            | notStarted => simp only [ReaderInv]; simp
            | reading rest acc =>
              simp only [ReaderInv, hrd] at hr
              rw [hlock] at hr
              simp at hr
            | finished res =>
              simp only [ReaderInv, hrd] at hr ⊢
              exact ⟨by simp, hr.2⟩
    | busy e rest p =>
      simp only [WriterInv, hwr] at hw
      obtain ⟨hlock, done, pre, hes, hbody, hmem⟩ := hw
      cases rest with
      | nil =>
        simp only [step, hwr, Option.some.injEq] at hstep
        subst hstep
        refine ⟨?_, ?_⟩
        · simp only [WriterInv]
          refine ⟨by simp, done ++ [e], ?_, ?_⟩
          · rw [hes]; simp
          · simp only [List.foldl_append]
            rw [List.append_nil] at hbody
            rw [← hbody] at hmem
            rw [hmem, bodyOf_foldl]
            simp [List.foldl]
        · cases hrd : s.rd with
          | notStarted => simp only [ReaderInv]; simp
          | reading racts acc =>
            simp only [ReaderInv, hrd] at hr
            rw [hlock] at hr
            simp at hr
          | finished res =>
            simp only [ReaderInv, hrd] at hr ⊢
            exact ⟨by simp, hr.2⟩
      | cons a rest2 =>
        simp only [step, hwr, Option.some.injEq] at hstep
        subst hstep
        refine ⟨?_, ?_⟩
        · simp only [WriterInv]
          refine ⟨hlock, done, pre ++ [a], hes, ?_, ?_⟩
          · rw [hbody]; simp
          · simp only [List.foldl_append, List.foldl]
            rw [hmem]
        · cases hrd : s.rd with
          | notStarted =>
            simp only [ReaderInv, hrd] at hr ⊢
            simpa using hr
          | reading racts acc =>
            simp only [ReaderInv, hrd] at hr
            rw [hlock] at hr
            simp at hr
          | finished res =>
            simp only [ReaderInv, hrd] at hr ⊢
            exact ⟨by simpa using hr.1, hr.2⟩
  | r =>
    cases hrd : s.rd with
    | notStarted =>
      cases hlock : s.lock with
      | some o => simp [step, hrd, hlock] at hstep
      | none =>
        simp only [step, hrd, hlock, Option.some.injEq] at hstep
        subst hstep
        refine ⟨?_, ?_⟩
        · cases hwr : s.wr with
          | idle p =>
            simp only [WriterInv, hwr] at hw ⊢
            exact ⟨by simp, hw.2⟩
          | busy e rest p =>
            simp only [WriterInv, hwr] at hw
            rw [hlock] at hw
            simp at hw
        · simp only [ReaderInv]
          exact ⟨by simp, allReads_foldl _ _⟩
    | reading racts acc =>
      simp only [ReaderInv, hrd] at hr
      obtain ⟨hlock, hfold⟩ := hr
      cases racts with
      | nil =>
        simp only [step, hrd, Option.some.injEq] at hstep
        subst hstep
        simp only [List.foldl] at hfold
        refine ⟨?_, ?_⟩
        · cases hwr : s.wr with
          | idle p =>
            simp only [WriterInv, hwr] at hw ⊢
            exact ⟨by simp, hw.2⟩
          | busy e rest p =>
            simp only [WriterInv, hwr] at hw
            rw [hlock] at hw
            simp at hw
        · simp only [ReaderInv]
          refine ⟨by simp, ?_⟩
          cases hwr : s.wr with
          | idle p =>
            simp only [WriterInv, hwr] at hw
            obtain ⟨-, done, hes, hmem⟩ := hw
            exact ⟨done.length, by rw [hfold, hmem, hes, List.take_left]⟩
          | busy e rest p =>
            simp only [WriterInv, hwr] at hw
            rw [hlock] at hw
            simp at hw
      | cons a racts2 =>
        simp only [step, hrd, Option.some.injEq] at hstep
        subst hstep
        refine ⟨?_, ?_⟩
        · cases hwr : s.wr with
          | idle p =>
            simp only [WriterInv, hwr] at hw ⊢
            exact ⟨hw.1, hw.2⟩
          | busy e rest p =>
            simp only [WriterInv, hwr] at hw
            rw [hlock] at hw
            simp at hw
        · simp only [ReaderInv]
          exact ⟨hlock, by simpa [List.foldl] using hfold⟩
    | finished res => simp [step, hrd] at hstep

/-- The invariant is preserved by every schedule. -/
theorem inv_run (es : List Event) (sched : List Tid) :
    ∀ s s2, Inv es s → run s sched = some s2 → Inv es s2 := by
  induction sched with
  | nil =>
    intro s s2 h hrun
    simp only [run, Option.some.injEq] at hrun
    subst hrun
    exact h
  | cons t ts ih =>
    intro s s2 h hrun
    simp only [run] at hrun
    cases hst : step s t with
    | none => rw [hst] at hrun; simp at hrun
    | some s1 =>
      rw [hst] at hrun
      exact ih s1 s2 (inv_step es s s1 t h hst) hrun

/-! ## Claim theorems -/

theorem lastTH_snoc_th (es : List Event) (m : TempHumidityMeasurement) :
    lastTH (es ++ [.tempHumidity m]) = some m := by
  simp [lastTH, List.foldl_append]

theorem lastTH_snoc_wr (es : List Event) (m : WindRainMeasurement) :
    lastTH (es ++ [.windRain m]) = lastTH es := by
  simp [lastTH, List.foldl_append]

theorem lastWR_snoc_th (es : List Event) (m : TempHumidityMeasurement) :
    lastWR (es ++ [.tempHumidity m]) = lastWR es := by
  simp [lastWR, List.foldl_append]

theorem lastWR_snoc_wr (es : List Event) (m : WindRainMeasurement) :
    lastWR (es ++ [.windRain m]) = some m := by
  simp [lastWR, List.foldl_append]

theorem getLast?_snoc (es : List Event) (e : Event) :
    (es ++ [e]).getLast? = some e := by
  simp

/-- C6: for every sequence of events folded into the aggregate, each
per-variant field holds the value of the most recent event of the variant
that sets it, battery holds the most recent event's flag (both variants set
it), and the timestamp is the most recently applied event's timestamp. -/
theorem aggregate_field_isolation (es : List Event) :
    (es.foldl applyEvent initCC).temp
        = ((lastTH es).map TempHumidityMeasurement.temp).getD initCC.temp
  ∧ (es.foldl applyEvent initCC).humidity
        = ((lastTH es).map TempHumidityMeasurement.humidity).getD initCC.humidity
  ∧ (es.foldl applyEvent initCC).windSpeed
        = ((lastWR es).map WindRainMeasurement.windSpeed).getD initCC.windSpeed
  ∧ (es.foldl applyEvent initCC).windDirection
        = ((lastWR es).map WindRainMeasurement.windDirection).getD initCC.windDirection
  ∧ (es.foldl applyEvent initCC).rainInches
        = ((lastWR es).map WindRainMeasurement.rainInches).getD initCC.rainInches
  ∧ (es.foldl applyEvent initCC).battery
        = ((es.getLast?).map eventBattery).getD initCC.battery
  ∧ (es.foldl applyEvent initCC).timestamp
        = ((es.getLast?).map eventTimestamp).getD initCC.timestamp := by
  induction es using List.reverseRecOn with
  | nil => simp [lastTH, lastWR]
  | append_singleton es e ih =>
    obtain ⟨h1, h2, h3, h4, h5, h6, h7⟩ := ih
    cases e with
    | tempHumidity m =>
      refine ⟨?_, ?_, ?_, ?_, ?_, ?_, ?_⟩ <;>
        simp [List.foldl_append, lastTH_snoc_th, lastWR_snoc_th, getLast?_snoc,
              applyEvent, SetTempHumidityConditions, eventBattery,
              eventTimestamp, h3, h4, h5]
    | windRain m =>
      refine ⟨?_, ?_, ?_, ?_, ?_, ?_, ?_⟩ <;>
        simp [List.foldl_append, lastTH_snoc_wr, lastWR_snoc_wr, getLast?_snoc,
              applyEvent, SetWindRainConditions, eventBattery,
              eventTimestamp, h1, h2]

/-- C9: under the mutex discipline of the source, every interleaving of the
writer's setter calls with a concurrent `GetCurrentConditions` yields a
snapshot equal to the fold of a whole-event prefix — never a
partially-updated record. -/
theorem snapshot_sees_whole_events (es : List Event) (sched : List Tid)
    (s2 : ConcState) (res : CurrentConditions)
    (hrun : run (initConc es) sched = some s2)
    (hres : s2.rd = .finished res) :
    ∃ k, res = (es.take k).foldl applyEvent initCC := by
  have hinv : Inv es s2 := inv_run es sched (initConc es) s2 (inv_init es) hrun
  obtain ⟨-, hr⟩ := hinv
  rw [ReaderInv, hres] at hr
  exact hr.2

/-- Witness for C9 at a concrete event list and schedule. -/
theorem snapshot_sees_whole_events_witness :
    ∃ k, sampleSnapshot = (sampleEvents.take k).foldl applyEvent initCC :=
  snapshot_sees_whole_events sampleEvents sampleSched
    { mem := sampleSnapshot, lock := none, wr := .idle [],
      rd := .finished sampleSnapshot }
    sampleSnapshot (by rfl) (by rfl)

/-- C4: the rain-delta computation: midnight (hour 0, minute 0) invalidates
the baseline and re-baselines on the same call (delta 0); an invalid
baseline is set to the cumulative value (delta 0); otherwise the delta is
cumulative minus baseline; and the trace 5.0 at midnight, 5.0 at
midnight+1s, 5.3 at midnight+2min yields deltas 0, 0, 0.3. -/
theorem rain_delta_steps (b c : ℚ) (h mi : Nat) (hb : 0 ≤ b) :
    (h = 0 ∧ mi = 0 → rainCall b h mi c = (0, c))
  ∧ (¬(h = 0 ∧ mi = 0) → rainCall b h mi c = (c - b, b))
  ∧ (∀ b2 : ℚ, b2 < 0 → rainCall b2 h mi c = (0, c))
  ∧ rainCall b 0 0 5 = (0, 5)
  ∧ rainCall 5 0 0 5 = (0, 5)
  ∧ rainCall 5 0 2 (53 / 10) = (3 / 10, 5) := by
  refine ⟨?_, ?_, ?_, ?_, ?_, ?_⟩
  · rintro ⟨rfl, rfl⟩
    norm_num [rainCall, rainBaselineUpdate]
  · intro hmid
    simp [rainCall, rainBaselineUpdate, hmid, not_lt.mpr hb]
  · intro b2 hb2
    by_cases hmid : h = 0 ∧ mi = 0 <;>
      norm_num [rainCall, rainBaselineUpdate, hmid, hb2]
  · norm_num [rainCall, rainBaselineUpdate]
  · norm_num [rainCall, rainBaselineUpdate]
  · norm_num [rainCall, rainBaselineUpdate]

/-- Witness for C4 at baseline 2, cumulative 7, wall clock 03:04. -/
theorem rain_delta_steps_witness :
    (((3 : Nat) = 0 ∧ (4 : Nat) = 0 → rainCall 2 3 4 7 = (0, 7))
  ∧ (¬((3 : Nat) = 0 ∧ (4 : Nat) = 0) → rainCall 2 3 4 7 = (7 - 2, 2))
  ∧ (∀ b2 : ℚ, b2 < 0 → rainCall b2 3 4 7 = (0, 7))
  ∧ rainCall 2 0 0 5 = (0, 5)
  ∧ rainCall 5 0 0 5 = (0, 5)
  ∧ rainCall 5 0 2 (53 / 10) = (3 / 10, 5)) :=
  rain_delta_steps 2 7 3 4 (by norm_num)

/-- C5: the staleness check is true exactly when the age strictly exceeds
five minutes (300000000000 ns); ages of six, four and exactly five minutes
give stale, fresh and fresh respectively. -/
theorem isStale_iff_age_exceeds (lastUpdated now : ℤ) :
    (isStale lastUpdated now = true ↔ now - lastUpdated > 300000000000)
  ∧ isStale lastUpdated (lastUpdated + 360000000000) = true
  ∧ isStale lastUpdated (lastUpdated + 240000000000) = false
  ∧ isStale lastUpdated (lastUpdated + 300000000000) = false := by
  have key : ∀ l n : ℤ, isStale l n = true ↔ n - l > 300000000000 := by
    intro l n
    simp only [isStale, durationMinutes, nsPerMinute, decide_eq_true_eq,
               gt_iff_lt]
    rw [lt_div_iff₀ (by norm_num : (0 : ℚ) < 60 * 1000000000)]
    constructor
    · intro h2
      exact_mod_cast h2
    · intro h2
      exact_mod_cast h2
  refine ⟨key _ _, ?_, ?_, ?_⟩
  · rw [key]
    omega
  · rw [Bool.eq_false_iff, Ne, key]
    omega
  · rw [Bool.eq_false_iff, Ne, key]
    omega

theorem rainDeltasRun_valid (l : ℚ) (hour minute : Nat)
    (hmid : ¬(hour = 0 ∧ minute = 0)) (hl : 0 ≤ l) (cs : List ℚ) :
    rainDeltasRun l hour minute cs = cs.map (fun c => c - l) := by
  induction cs with
  | nil => rfl
  | cons c cs ih =>
    have hcall : rainCall l hour minute c = (c - l, l) := by
      simp [rainCall, rainBaselineUpdate, hmid, not_lt.mpr hl]
    simp [rainDeltasRun, hcall, ih]

/-- C7: with no midnight crossing and non-negative readings, the reported
deltas for strictly increasing cumulative readings are non-decreasing, and
when the run starts with an invalid baseline the first reported delta is
0 (the baseline-establishing reading). -/
theorem rain_deltas_monotone (l : ℚ) (hour minute : Nat) (cs : List ℚ)
    (hmid : ¬(hour = 0 ∧ minute = 0)) (hchain : cs.Chain' (· < ·))
    (hpos : ∀ c ∈ cs, 0 ≤ c) :
    (rainDeltasRun l hour minute cs).Chain' (· ≤ ·)
  ∧ (l < 0 → ∀ c1 cs2, cs = c1 :: cs2 →
       (rainDeltasRun l hour minute cs).head? = some 0) := by
  by_cases hl : 0 ≤ l
  · refine ⟨?_, ?_⟩
    · rw [rainDeltasRun_valid l hour minute hmid hl, List.chain'_map]
      exact hchain.imp (fun a b hab => by linarith)
    · intro hneg
      exact absurd hneg (not_lt.mpr hl)
  · push_neg at hl
    cases cs with
    | nil =>
      exact ⟨List.chain'_nil, fun _ c1 cs2 habs => by cases habs⟩
    | cons c1 cs2 =>
      have hcall : rainCall l hour minute c1 = (0, c1) := by
        simp [rainCall, rainBaselineUpdate, hmid, hl]
      have hc1 : (0 : ℚ) ≤ c1 := hpos c1 (by simp)
      have hrest : rainDeltasRun c1 hour minute cs2
          = cs2.map (fun c => c - c1) :=
        rainDeltasRun_valid c1 hour minute hmid hc1 cs2
      obtain ⟨hhead, htail⟩ := List.chain'_cons'.mp hchain
      refine ⟨?_, ?_⟩
      · simp only [rainDeltasRun, hcall, hrest]
        rw [List.chain'_cons']
        refine ⟨?_, ?_⟩
        · intro b hb
          cases cs2 with
          | nil => simp at hb
          | cons c2 cs3 =>
            simp only [List.map_cons, List.head?_cons, Option.mem_def,
                       Option.some.injEq] at hb
            have hlt : c1 < c2 := hhead c2 (by simp)
            rw [← hb]
            linarith
        · rw [List.chain'_map]
          exact htail.imp (fun a b hab => by linarith)
      · intro _ c1a cs2a _
        simp [rainDeltasRun, hcall]

/-- Witness for C7: invalid baseline, readings 2 then 4 at 12:30. -/
theorem rain_deltas_monotone_witness :
    ((rainDeltasRun (-1) 12 30 [2, 4]).Chain' (· ≤ ·)
  ∧ ((-1 : ℚ) < 0 → ∀ c1 cs2, ([2, 4] : List ℚ) = c1 :: cs2 →
       (rainDeltasRun (-1) 12 30 [2, 4]).head? = some 0)) :=
  rain_deltas_monotone (-1) 12 30 [2, 4] (by norm_num)
    (by norm_num [List.chain'_cons, List.chain'_singleton])
    (by norm_num)

/-- C10: the windspeedmph entry published for a wind/rain event is the
event's wind speed in km/h multiplied by 0.62137119 and formatted to two
decimal places; at 10 km/h the published value is "6.21". -/
theorem windspeed_kmh_to_mph (a : App) (hour minute : Nat)
    (m : WindRainMeasurement) :
    (handleWindRainMeasurement a hour minute m).2 "windspeedmph"
        = some (fmt2 (m.windSpeed * kmhToMph))
  ∧ (handleWindRainMeasurement ⟨-1⟩ 12 30 ⟨"t", 10, 0, 0, 1⟩).2 "windspeedmph"
        = some "6.21" := by
  refine ⟨?_, ?_⟩
  · simp [handleWindRainMeasurement]
  · have h621 : round ((10 : ℚ) * kmhToMph * 100) = (621 : ℤ) := by
      rw [round_eq]
      norm_num [kmhToMph]
    simp [handleWindRainMeasurement]
    simp only [fmt2, h621]
    norm_num
    decide

/-- C8 counterexample: a measurement-map entry keyed "timestamp" is present
in the map but absent from the outbound query set, so the query set is not
exactly the map entries plus the four fixed parameters. -/
theorem query_drops_timestamp_entry :
    tsOnlyValues "timestamp" = some "2025-08-03 21:51:44"
  ∧ submitMeasurementQuery "myid" "mykey" tsOnlyValues "timestamp" = none := by
  exact ⟨rfl, rfl⟩

/-- C8 amended: for every key other than "timestamp" the outbound query set
carries the map's value when present and the fixed parameter value
otherwise; an entry keyed "timestamp" is always omitted; and the handlers
only place two-decimal formatted values in the measurement map. -/
theorem query_params_exact (id key : String) (values : String → Option String)
    (k : String) (hk : k ≠ "timestamp") :
    (∀ v, values k = some v → submitMeasurementQuery id key values k = some v)
  ∧ (values k = none →
       submitMeasurementQuery id key values k = fixedParams id key k)
  ∧ submitMeasurementQuery id key values "timestamp" = none
  ∧ (∀ (a : App) (hour minute : Nat) (m : WindRainMeasurement) (k2 v : String),
       (handleWindRainMeasurement a hour minute m).2 k2 = some v →
         ∃ q : ℚ, v = fmt2 q)
  ∧ (∀ (m : TempHumidityMeasurement) (k2 v : String),
       handleTempHumidityMeasurement m k2 = some v → ∃ q : ℚ, v = fmt2 q) := by
  refine ⟨?_, ?_, ?_, ?_, ?_⟩
  · intro v hv
    simp [submitMeasurementQuery, mdict, hk, hv]
  · intro hv
    simp [submitMeasurementQuery, mdict, hk, hv]
  · simp [submitMeasurementQuery]
  · intro a hour minute m k2 v hv
    simp only [handleWindRainMeasurement] at hv
    split_ifs at hv <;> simp only [Option.some.injEq] at hv
    · exact ⟨_, hv.symm⟩
    · exact ⟨_, hv.symm⟩
    · exact ⟨_, hv.symm⟩
  · intro m k2 v hv
    simp only [handleTempHumidityMeasurement] at hv
    split_ifs at hv <;> simp only [Option.some.injEq] at hv
    · exact ⟨_, hv.symm⟩
    · exact ⟨_, hv.symm⟩

/-- Witness for the amended C8 at concrete credentials, an empty map and the
key "tempf". -/
theorem query_params_exact_witness :
    ("tempf" ≠ "timestamp")
  ∧ ((∀ v, (fun _ => (none : Option String)) "tempf" = some v →
        submitMeasurementQuery "myid" "mykey" (fun _ => none) "tempf" = some v)
  ∧ ((fun _ => (none : Option String)) "tempf" = none →
       submitMeasurementQuery "myid" "mykey" (fun _ => none) "tempf"
         = fixedParams "myid" "mykey" "tempf")
  ∧ submitMeasurementQuery "myid" "mykey" (fun _ => none) "timestamp" = none
  ∧ (∀ (a : App) (hour minute : Nat) (m : WindRainMeasurement) (k2 v : String),
       (handleWindRainMeasurement a hour minute m).2 k2 = some v →
         ∃ q : ℚ, v = fmt2 q)
  ∧ (∀ (m : TempHumidityMeasurement) (k2 v : String),
       handleTempHumidityMeasurement m k2 = some v → ∃ q : ℚ, v = fmt2 q)) :=
  ⟨by decide,
   query_params_exact "myid" "mykey" (fun _ => none) "tempf" (by decide)⟩

/-- C1 evaluation at the failing inputs: the timer is re-armed only on the
successful-publish path; a stale tick and a failed-sink tick both leave the
timer un-armed, so no later timer tick can occur. -/
theorem timer_rearm_only_on_publish :
    timerTick loopStateAt0 400000000000 (.ok 200 "ok")
      = (.skippedStale, some { loopStateAt0 with timerArmed := false })
  ∧ timerTick loopStateAt0 100000000000 (.fail "connection refused")
      = (.sinkErrorSkipped, some { loopStateAt0 with timerArmed := false })
  ∧ timerTick loopStateAt0 100000000000 (.ok 200 "ok")
      = (.published 200 "ok", some { loopStateAt0 with timerArmed := true }) := by
  have hstale : isStale 0 400000000000 = true := by
    simp only [isStale, durationMinutes, nsPerMinute, decide_eq_true_eq]
    norm_num
  have hfresh : isStale 0 100000000000 = false := by
    simp only [isStale, durationMinutes, nsPerMinute, decide_eq_false_iff_not]
    norm_num
  refine ⟨?_, ?_, ?_⟩ <;> simp [timerTick, loopStateAt0, hstale, hfresh]

/-- C2 evaluation at the failing input: a timer tick before any event has
ever arrived dereferences the nil `data.Timestamp` and the process panics
instead of logging a skip and continuing. -/
theorem tick_with_nil_timestamp_panics :
    timerTick
      { app := ⟨-1⟩,
        data := { timestamp := none, data := fun _ => none },
        timerArmed := true }
      0 (.ok 200 "ok") = (.panicked, none) := by
  rfl

/-- C3 evaluation at the failing input: a failed sink call leaves the
accumulated data map and the rain baseline unchanged and the process alive,
but the timer is left un-armed, so no next timer tick can publish; the older
publisher variant instead panics on the nil response. -/
theorem sink_error_keeps_state_but_no_next_tick :
    timerTick loopStateAt0 200000000000 (.fail "connection refused")
      = (.sinkErrorSkipped, some { loopStateAt0 with timerArmed := false })
  ∧ timerTickOld (.fail "connection refused") = (.panicked, false) := by
  have hfresh : isStale 0 200000000000 = false := by
    simp only [isStale, durationMinutes, nsPerMinute, decide_eq_false_iff_not]
    norm_num
  exact ⟨by simp [timerTick, loopStateAt0, hfresh], rfl⟩

end WeatherStation
